import Mathlib

/-
Verification of the session layer of the oauth2-proxy style reverse proxy:
the `providers` SessionState entity (src/providers/session_state.go) and the
stored-session-loader middleware (src/pkg/middleware/stored_session.go).

Modelling conventions, stated once:
  * Go multi-value returns `(v, err)` are modelled as pairs whose second
    component is `Option` of the error type (`none` = nil error).
  * `time.Time` is modelled as `Nat` (0 = the zero time, `IsZero`), and
    `time.Duration` as `Int`.
  * `json.Marshal` / `json.Unmarshal` on the SessionState struct form a
    bijection between the struct value and its wire string (string fields
    round-trip exactly, `omitempty` only drops empty strings which
    unmarshal back to the zero value ""), so the wire form is modelled as
    the struct value itself and marshalling as the identity; `json.Marshal`
    never fails on this struct.
  * The `cookie.Cipher` is abstract: a pair of functions
    `Encrypt, Decrypt : String -> String × Option String`.
-/

namespace OAuthProxy

/-- Embedding of `providers.SessionState` (src/providers/session_state.go,
lines 13-20): fields in source order; `ExpiresOn time.Time` is modelled as a
`Nat` with 0 meaning the zero time. -/
structure SessionState where
  AccessToken : String
  IDToken : String
  ExpiresOn : Nat
  RefreshToken : String
  Email : String
  User : String
deriving DecidableEq

/-- The zero value `SessionState{}` of Go (all strings empty, zero time). -/
def SessionState.zero : SessionState := ⟨"", "", 0, "", "", ""⟩

/-- Abstract model of `*cookie.Cipher`: `Encrypt`/`Decrypt` return
`(ciphertext-or-plaintext, error)` in the Go convention. -/
structure Cipher where
  Encrypt : String → String × Option String
  Decrypt : String → String × Option String

/-- Embedding of `(s *SessionState) String()` (src/providers/session_state.go,
lines 31-46). The `fmt.Sprintf("%s", time)` rendering of `ExpiresOn` is
modelled as `toString` of the modelled timestamp; only its dependence on the
`ExpiresOn` value matters here. -/
def SessionState.String (s : SessionState) : String :=
  let o := "Session\x7bemail:" ++ s.Email ++ " user:" ++ s.User
  let o := if s.AccessToken ≠ "" then o ++ " token:true" else o
  let o := if s.IDToken ≠ "" then o ++ " id_token:true" else o
  let o := if s.ExpiresOn ≠ 0 then o ++ " expires:" ++ toString s.ExpiresOn else o
  let o := if s.RefreshToken ≠ "" then o ++ " refresh_token:true" else o
  o ++ "\x7d"

/-- Embedding of `(s *SessionState) EncodeSessionState(c *cookie.Cipher)`
(src/providers/session_state.go, lines 49-79).

The result is `((wire, err), receiverAfter)`:
  * `wire` models the marshalled string (see the header note: marshalling is
    the identity on the struct); on an encryption error the source returns
    the string "" which is not a valid encoding, modelled as
    `SessionState.zero` paired with the error — callers must check `err`.
  * `receiverAfter` is the value of `*s` when the function returns. Every
    assignment in the source writes a field of the local copy `ss`
    (declared `var ss SessionState`, then `ss = *s` in the cipher branch),
    never through the receiver pointer, so the receiver component is
    threaded through unchanged on every path.

Each sensitive field is encrypted only when non-empty, mirroring the three
`if ss.XXX != ""` guards; each guard reads the field of `ss` before any
assignment to that same field, i.e. the original value of `*s`. -/
def EncodeSessionState (s : SessionState) (c : Option Cipher) :
    (SessionState × Option String) × SessionState :=
  match c with
  | none =>
      -- Store only Email and User when cipher is unavailable
      ((⟨"", "", 0, "", s.Email, s.User⟩, none), s)
  | some c =>
    match (if s.AccessToken ≠ "" then c.Encrypt s.AccessToken else (s.AccessToken, none)) with
    | (_, some e) => ((SessionState.zero, some e), s)
    | (a, none) =>
      match (if s.IDToken ≠ "" then c.Encrypt s.IDToken else (s.IDToken, none)) with
      | (_, some e) => ((SessionState.zero, some e), s)
      | (i, none) =>
        match (if s.RefreshToken ≠ "" then c.Encrypt s.RefreshToken else (s.RefreshToken, none)) with
        | (_, some e) => ((SessionState.zero, some e), s)
        | (r, none) => (({ s with AccessToken := a, IDToken := i, RefreshToken := r }, none), s)

/-- Go `strings.Split(email, "@")[0]`: the prefix of `email` up to (not
including) its first "@", the whole string when it contains none — Go
`Split` with a non-empty separator always returns a non-empty slice whose
first element is exactly that prefix.  Written by structural recursion over
the character list so that it evaluates inside the kernel. -/
def emailLocalPart (email : String) : String :=
  String.mk (email.data.takeWhile (fun ch => ch != '@'))

/-- Embedding of `DecodeSessionState(v string, c *cookie.Cipher)`
(src/providers/session_state.go, lines 82-118). The argument is the wire
value already unmarshalled (see the header note); a `json.Unmarshal` failure
on malformed input is outside the modelled domain, which consists of the
valid encodings. Returns `(session, err)` in the Go convention, `none`
standing for the nil `*SessionState` returned on a decryption error.
`strings.Split(ss.Email, "@")[0]` is `emailLocalPart ss.Email`. -/
def DecodeSessionState (v : SessionState) (c : Option Cipher) :
    Option SessionState × Option String :=
  match c with
  | none =>
    -- Load only Email and User when cipher is unavailable
    let ss : SessionState := ⟨"", "", 0, "", v.Email, v.User⟩
    (some (if ss.User = "" then { ss with User := emailLocalPart ss.Email } else ss), none)
  | some c =>
    match (if v.AccessToken ≠ "" then c.Decrypt v.AccessToken else (v.AccessToken, none)) with
    | (_, some e) => (none, some e)
    | (a, none) =>
      match (if v.IDToken ≠ "" then c.Decrypt v.IDToken else (v.IDToken, none)) with
      | (_, some e) => (none, some e)
      | (i, none) =>
        match (if v.RefreshToken ≠ "" then c.Decrypt v.RefreshToken else (v.RefreshToken, none)) with
        | (_, some e) => (none, some e)
        | (r, none) =>
          let ss := { v with AccessToken := a, IDToken := i, RefreshToken := r }
          (some (if ss.User = "" then { ss with User := emailLocalPart ss.Email } else ss), none)

/-- A cipher that swaps the strings "t" and "" and fixes everything else: an
involution, so its `Decrypt` inverts its `Encrypt`; it maps the non-empty
plaintext "t" to the empty ciphertext. -/
def swapCipher : Cipher :=
  { Encrypt := fun x => (if x = "t" then "" else if x = "" then "t" else x, none)
    Decrypt := fun x => (if x = "t" then "" else if x = "" then "t" else x, none) }

/-- `swapCipher.Decrypt` inverts `swapCipher.Encrypt`. -/
theorem swapCipher_inverts :
    ∀ x y, swapCipher.Encrypt x = (y, none) → swapCipher.Decrypt y = (x, none) := by
  intro x y h
  simp only [swapCipher, Prod.mk.injEq] at h ⊢
  by_cases h1 : x = "t" <;> by_cases h2 : x = "" <;> simp_all

/-- The identity cipher: `Encrypt` and `Decrypt` both succeed returning the
input unchanged. -/
def idCipher : Cipher :=
  { Encrypt := fun x => (x, none), Decrypt := fun x => (x, none) }

/-
Middleware embedding (src/pkg/middleware/stored_session.go).

The middleware works on `sessionsapi.SessionState`, whose struct definition
is not among the provided sources (src/pkg/apis/sessions/interfaces.go only
declares the `SessionStore` interface and two error sentinels). Modelled
from the spec: the loader observes only `Age()` (time.Duration, spec section
3: now minus CreatedAt), `IsExpired()` and a textual summary of a session,
so an `MSession` carries those observations as fields, fixed per loaded
value, plus an identifier so distinct sessions are distinguishable.

The session store and the provider callbacks are oracles packaged in the
`storedSessionLoader` structure together with `refreshPeriod`, mirroring
the Go struct fields.  Because `store.Load` is called repeatedly in the
contention retry loop, its oracle is indexed by the running count of `Load`
calls made so far; every embedded function takes that index where needed
and each call site passes the successor index on.

Every embedded function additionally returns the list of store operations
and provider callbacks it performs, in order, as `Event`s; the claims about
"never calls X" / "calls X exactly once" are stated as counts over that
list.  Log statements (`logger.*`) are not events: no claim depends on
them, and they perform no store or provider call.
-/

/-- Go `error` values as the middleware distinguishes them:
`sessionsapi.ErrNotLockable` is the distinguished sentinel compared with
`==` at src/pkg/middleware/stored_session.go line 131 (its declaration is
not under src — the sessions package in src declares the analogous
`ErrLockNotObtained`; modelled from the spec as a distinguished value,
distinct by construction from every message-carrying error), and every
other error is identified by its message string. -/
inductive GoErr
  | notLockable
  | msg (s : String)
deriving DecidableEq

/-- The `Error()` string of a modelled Go error, used where the source
formats an error with `%v`. -/
def errString : GoErr → String
  | GoErr.notLockable => "session state not lockable"
  | GoErr.msg s => s

/-- Modelled from the spec: the observations the loader makes of a
`sessionsapi.SessionState` — `age` is the value of `Age()`, `expired` the
value of `IsExpired()`, and `sid` an identifier making sessions
distinguishable as values. -/
structure MSession where
  sid : Nat
  age : Int
  expired : Bool
deriving DecidableEq

/-- Stand-in for the `%s` rendering of a session in log and error messages
(`SessionState.String`); no claim depends on its content. -/
def MSession.str (m : MSession) : String := "Session(sid=" ++ toString m.sid ++ ")"

/-- The store operations and provider callbacks recorded by the embedding,
plus `next` for invoking the next handler in the chain. -/
inductive Event
  | load
  | loadWithLock
  | releaseLock
  | save
  | clear
  | isRefreshNeeded
  | validate
  | refreshSession
  | next
deriving DecidableEq

/-- Embedding of the `storedSessionLoader` struct
(src/pkg/middleware/stored_session.go, lines 55-61) together with the
behaviour of its store and provider collaborators as response oracles:
  * `load i` — the `(session, error)` returned by the i-th `store.Load`
    call of the request (0-based, counted across the whole request);
  * `loadWithLock` — the response of `store.LoadWithLock` (called at most
    once per request);
  * `save m` — the error returned by `store.Save` for session `m`;
  * `clear` — the error returned by `store.Clear`;
  * `refreshSessionWithProvider m` — the in-place mutation of the session by
    the provider refresh callback, modelled as the resulting session value,
    with its error;
  * the remaining fields are the loader's own configuration. -/
structure storedSessionLoader where
  load : Nat → Option MSession × Option GoErr
  loadWithLock : Option MSession × Option GoErr
  save : MSession → Option GoErr
  clear : Option GoErr
  refreshPeriod : Int
  refreshSessionWithProvider : MSession → MSession × Option GoErr
  isRefreshSessionNeededWithProvider : MSession → Bool
  validateSessionState : MSession → Bool

/-- Embedding of `isRefreshPeriodOver` (src/pkg/middleware/stored_session.go,
lines 176-178): `s.refreshPeriod > time.Duration(0) && session.Age() >=
s.refreshPeriod`. -/
def storedSessionLoader.isRefreshPeriodOver (s : storedSessionLoader) (session : MSession) : Bool :=
  decide (s.refreshPeriod > 0) && decide (session.age ≥ s.refreshPeriod)

/-- Embedding of `validateSession` (src/pkg/middleware/stored_session.go,
lines 204-214): expiry is checked on the session itself before the provider
callback, so an expired session produces the error without a `validate`
event. -/
def storedSessionLoader.validateSession (s : storedSessionLoader) (session : MSession) :
    Option GoErr × List Event :=
  if session.expired then (some (GoErr.msg "session is expired"), [])
  else if !(s.validateSessionState session) then
    (some (GoErr.msg "session is invalid"), [Event.validate])
  else (none, [Event.validate])

/-- Embedding of the loader method `refreshSession`
(src/pkg/middleware/stored_session.go, lines 182-199).  The provider
callback mutates the session in place; its result value is the session the
subsequent `Save` receives and the caller observes.  The source's
`if session == nil` guard between refresh and save tests the parameter
pointer itself, which the callback cannot change and which the only caller
(line 143) has already checked to be non-nil, so it is never taken here. -/
def storedSessionLoader.refreshSession (s : storedSessionLoader) (session : MSession) :
    (MSession × Option GoErr) × List Event :=
  match s.refreshSessionWithProvider session with
  | (session2, some e) =>
      ((session2, some (GoErr.msg ("error refreshing access token: " ++ errString e))),
       [Event.refreshSession])
  | (session2, none) =>
    match s.save session2 with
    | some e =>
        ((session2, some (GoErr.msg ("error saving session: " ++ errString e))),
         [Event.refreshSession, Event.save])
    | none => ((session2, none), [Event.refreshSession, Event.save])

/-- Embedding of `retryLoadingValidSession`
(src/pkg/middleware/stored_session.go, lines 152-174): the `for i := 0; i <
attempts` loop becomes recursion on the remaining attempts, `k` being the
index of the next `store.Load` call; the `time.Sleep` between attempts has
no observable effect in the model. -/
def retryLoadingValidSession (s : storedSessionLoader) :
    Nat → Nat → (Option MSession × Option GoErr) × List Event
  | 0, _ => ((none, none), [])
  | n+1, k =>
    match s.load k with
    | (_, some e) => ((none, some e), [Event.load])
    | (none, none) =>
      -- No session was found in the storage, nothing more to do
      ((none, none), [Event.load])
    | (some session, none) =>
      if !(s.isRefreshPeriodOver session) then
        -- Refresh is disabled or the session is not old enough, do nothing
        ((some session, none), [Event.load])
      else if !(s.isRefreshSessionNeededWithProvider session) then
        ((some session, none), [Event.load, Event.isRefreshNeeded])
      else
        let r := retryLoadingValidSession s n (k+1)
        (r.1, Event.load :: Event.isRefreshNeeded :: r.2)

/-- Embedding of `getRefreshedSession`
(src/pkg/middleware/stored_session.go, lines 128-150).  `k` is the index of
the next `store.Load` call.  The deferred `ReleaseLock` runs when the
function returns, on every path — after the retry loop in the contention
branch — hence the `releaseLock` event appended at the end.  The Go
condition `err != nil && err == ErrNotLockable` is exactly
`lr.2 = some GoErr.notLockable`; on any other non-nil error the pair
`(nil, err)` is returned unchanged. -/
def getRefreshedSession (s : storedSessionLoader) (k : Nat) :
    (Option MSession × Option GoErr) × List Event :=
  let lr := s.loadWithLock
  let body :=
    if lr.2 = some GoErr.notLockable then
      -- not able to lock session state: other instance is currently refreshing
      retryLoadingValidSession s 10 k
    else
      match lr with
      | (_, some e) => ((none, some e), [])
      | (none, none) => ((none, none), [])
      | (some session, none) =>
        if s.isRefreshSessionNeededWithProvider session then
          let r := s.refreshSession session
          match r.1.2 with
          | some e =>
              ((none, some (GoErr.msg ("error refreshing access token for session (" ++
                 MSession.str r.1.1 ++ "): " ++ errString e))),
               Event.isRefreshNeeded :: r.2)
          | none => ((some r.1.1, none), Event.isRefreshNeeded :: r.2)
        else ((some session, none), [Event.isRefreshNeeded])
  (body.1, Event.loadWithLock :: body.2 ++ [Event.releaseLock])

/-- Embedding of `ensureSessionIsValid`
(src/pkg/middleware/stored_session.go, lines 109-126); `k` as above. -/
def ensureSessionIsValid (s : storedSessionLoader) (k : Nat) (session : MSession) :
    (Option MSession × Option GoErr) × List Event :=
  if !(s.isRefreshPeriodOver session) then
    -- Refresh is disabled or the session is not old enough, do nothing
    ((some session, none), [])
  else if s.isRefreshSessionNeededWithProvider session then
    let r := getRefreshedSession s k
    (r.1, Event.isRefreshNeeded :: r.2)
  else
    -- Session was not refreshed, so make sure it is still valid
    let v := s.validateSession session
    match v.1 with
    | some e => ((none, some e), Event.isRefreshNeeded :: v.2)
    | none => ((some session, none), Event.isRefreshNeeded :: v.2)

/-- Embedding of `getValidatedSession`
(src/pkg/middleware/stored_session.go, lines 96-107): the initial
`store.Load` is Load call number 0, so the validation path continues with
index 1. -/
def getValidatedSession (s : storedSessionLoader) :
    (Option MSession × Option GoErr) × List Event :=
  match s.load 0 with
  | (_, some e) => ((none, some e), [Event.load])
  | (none, none) => ((none, none), [Event.load])
  | (some session, none) =>
    let r := ensureSessionIsValid s 1 session
    (r.1, Event.load :: r.2)

/-- Embedding of the handler built by `loadSession`
(src/pkg/middleware/stored_session.go, lines 66-92) for one request whose
scope carries `scopeSession`.  Returns the session installed into the scope
and the events.  On a `getValidatedSession` error the source logs, calls
`store.Clear` and only logs a `Clear` failure (the result of `clear` feeds
nothing but that log line), then still installs the returned session value
— whatever it was — and invokes the next handler; no path returns early
except the pass-through. -/
def loadSession (s : storedSessionLoader) (scopeSession : Option MSession) :
    Option MSession × List Event :=
  match scopeSession with
  | some session =>
      -- The session was already loaded, pass to the next handler
      (some session, [Event.next])
  | none =>
    let r := getValidatedSession s
    match r.1 with
    | (session, some _) => (session, r.2 ++ [Event.clear, Event.next])
    | (session, none) => (session, r.2 ++ [Event.next])

/-! Helper lemmas about which events each embedded function can emit and
about the shape of its `(session, error)` result. -/

/-- Every event of the retry loop is a `Load` or a provider
refresh-needed check. -/
lemma retry_mem (s : storedSessionLoader) :
    ∀ n k x, x ∈ (retryLoadingValidSession s n k).2 →
      x = Event.load ∨ x = Event.isRefreshNeeded := by
  intro n
  induction n with
  | zero => intro k x hx; simp [retryLoadingValidSession] at hx
  | succ n ih =>
    intro k x hx
    rcases hl : s.load k with ⟨v, err⟩
    rcases err with _ | e
    · rcases v with _ | m
      · simp [retryLoadingValidSession, hl] at hx
        exact Or.inl hx
      · cases hdue : s.isRefreshPeriodOver m
        · simp [retryLoadingValidSession, hl, hdue] at hx
          exact Or.inl hx
        · cases hneed : s.isRefreshSessionNeededWithProvider m
          · simp [retryLoadingValidSession, hl, hdue, hneed] at hx
            tauto
          · simp [retryLoadingValidSession, hl, hdue, hneed] at hx
            rcases hx with hx | hx | hx
            · exact Or.inl hx
            · exact Or.inr hx
            · exact ih (k+1) x hx
    · simp [retryLoadingValidSession, hl] at hx
      exact Or.inl hx

/-- The loader's `refreshSession` emits only the provider refresh call and
possibly a `Save`. -/
lemma refreshSession_mem (s : storedSessionLoader) (m : MSession) :
    ∀ x, x ∈ (s.refreshSession m).2 → x = Event.refreshSession ∨ x = Event.save := by
  intro x hx
  rcases hp : s.refreshSessionWithProvider m with ⟨m2, perr⟩
  rcases perr with _ | e
  · rcases hs : s.save m2 with _ | e <;>
      simp [storedSessionLoader.refreshSession, hp, hs] at hx <;> tauto
  · simp [storedSessionLoader.refreshSession, hp] at hx
    exact Or.inl hx

/-- `validateSession` emits at most the provider validation call. -/
lemma validateSession_mem (s : storedSessionLoader) (m : MSession) :
    ∀ x, x ∈ (s.validateSession m).2 → x = Event.validate := by
  intro x hx
  cases hexp : m.expired
  · cases hval : s.validateSessionState m <;>
      simp [storedSessionLoader.validateSession, hexp, hval] at hx <;> exact hx
  · simp [storedSessionLoader.validateSession, hexp] at hx

/-- Every event of `getRefreshedSession` is a lock, store or provider
operation of the refresh path: never a `Clear` or a next-handler event. -/
lemma getRefreshedSession_mem (s : storedSessionLoader) (k : Nat) :
    ∀ x, x ∈ (getRefreshedSession s k).2 →
      x = Event.loadWithLock ∨ x = Event.releaseLock ∨ x = Event.load ∨
      x = Event.isRefreshNeeded ∨ x = Event.refreshSession ∨ x = Event.save := by
  intro x hx
  simp only [getRefreshedSession, List.mem_cons, List.mem_append, List.mem_singleton] at hx
  rcases hx with (h | hx) | h
  · exact Or.inl h
  · by_cases hc : s.loadWithLock.2 = some GoErr.notLockable
    · rw [if_pos hc] at hx
      rcases retry_mem s 10 k x hx with h | h
      · exact Or.inr (Or.inr (Or.inl h))
      · exact Or.inr (Or.inr (Or.inr (Or.inl h)))
    · rw [if_neg hc] at hx
      rcases hlw : s.loadWithLock with ⟨v, err⟩
      rcases err with _ | e
      · rcases v with _ | m
        · simp [hlw] at hx
        · cases hneed : s.isRefreshSessionNeededWithProvider m
          · simp [hlw, hneed] at hx
            exact Or.inr (Or.inr (Or.inr (Or.inl hx)))
          · rcases hm : (s.refreshSession m).1.2 with _ | e <;>
              simp [hlw, hneed, hm] at hx <;> rcases hx with hx | hx
            · exact Or.inr (Or.inr (Or.inr (Or.inl hx)))
            · rcases refreshSession_mem s m x hx with h | h
              · exact Or.inr (Or.inr (Or.inr (Or.inr (Or.inl h))))
              · exact Or.inr (Or.inr (Or.inr (Or.inr (Or.inr h))))
            · exact Or.inr (Or.inr (Or.inr (Or.inl hx)))
            · rcases refreshSession_mem s m x hx with h | h
              · exact Or.inr (Or.inr (Or.inr (Or.inr (Or.inl h))))
              · exact Or.inr (Or.inr (Or.inr (Or.inr (Or.inr h))))
      · simp [hlw] at hx
  · rcases h with h | h
    · exact Or.inr (Or.inl h)
    · simp at h

/-- Every event of `ensureSessionIsValid` comes from the refresh path or is
a provider callback: never a `Clear` or a next-handler event. -/
lemma ensureSessionIsValid_mem (s : storedSessionLoader) (k : Nat) (m : MSession) :
    ∀ x, x ∈ (ensureSessionIsValid s k m).2 → x ≠ Event.clear ∧ x ≠ Event.next := by
  intro x hx
  cases hdue : s.isRefreshPeriodOver m
  · simp [ensureSessionIsValid, hdue] at hx
  · cases hneed : s.isRefreshSessionNeededWithProvider m
    · rcases hv : (s.validateSession m).1 with _ | e <;>
        simp [ensureSessionIsValid, hdue, hneed, hv] at hx <;>
        rcases hx with hx | hx
      · subst hx; exact ⟨by decide, by decide⟩
      · have := validateSession_mem s m x hx; subst this; exact ⟨by decide, by decide⟩
      · subst hx; exact ⟨by decide, by decide⟩
      · have := validateSession_mem s m x hx; subst this; exact ⟨by decide, by decide⟩
    · simp [ensureSessionIsValid, hdue, hneed] at hx
      rcases hx with hx | hx
      · subst hx; exact ⟨by decide, by decide⟩
      · rcases getRefreshedSession_mem s k x hx with h | h | h | h | h | h <;> subst h <;>
          exact ⟨by decide, by decide⟩

/-- Every event of `getValidatedSession` is a store load, a lock operation
or a provider callback: never a `Clear` or a next-handler event. -/
lemma getValidatedSession_mem (s : storedSessionLoader) :
    ∀ x, x ∈ (getValidatedSession s).2 → x ≠ Event.clear ∧ x ≠ Event.next := by
  intro x hx
  unfold getValidatedSession at hx
  rcases hl : s.load 0 with ⟨v, err⟩
  rw [hl] at hx
  rcases err with _ | e
  · rcases v with _ | m
    · simp at hx; subst hx; exact ⟨by decide, by decide⟩
    · simp at hx
      rcases hx with hx | hx
      · subst hx; exact ⟨by decide, by decide⟩
      · exact ensureSessionIsValid_mem s 1 m x hx
  · simp at hx; subst hx; exact ⟨by decide, by decide⟩

/-- On every path of the retry loop, a nil error comes with the returned
session and a non-nil error comes with a nil session. -/
lemma retry_disj (s : storedSessionLoader) :
    ∀ n k, (retryLoadingValidSession s n k).1.2 = none ∨
      (retryLoadingValidSession s n k).1.1 = none := by
  intro n
  induction n with
  | zero => intro k; simp [retryLoadingValidSession]
  | succ n ih =>
    intro k
    rcases hl : s.load k with ⟨v, err⟩
    rcases err with _ | e
    · rcases v with _ | m
      · simp [retryLoadingValidSession, hl]
      · cases hdue : s.isRefreshPeriodOver m <;>
          simp [retryLoadingValidSession, hl, hdue]
        cases hneed : s.isRefreshSessionNeededWithProvider m <;> simp [hneed]
        simpa using ih (k+1)
    · simp [retryLoadingValidSession, hl]

/-- On every path of `getRefreshedSession`, a non-nil error comes with a nil
session. -/
lemma getRefreshedSession_disj (s : storedSessionLoader) (k : Nat) :
    (getRefreshedSession s k).1.2 = none ∨ (getRefreshedSession s k).1.1 = none := by
  simp only [getRefreshedSession]
  by_cases hc : s.loadWithLock.2 = some GoErr.notLockable
  · rw [if_pos hc]
    exact retry_disj s 10 k
  · rw [if_neg hc]
    rcases hlw : s.loadWithLock with ⟨v, err⟩
    rcases err with _ | e
    · rcases v with _ | m
      · simp [hlw]
      · cases hneed : s.isRefreshSessionNeededWithProvider m
        · simp [hlw, hneed]
        · rcases hm : (s.refreshSession m).1.2 with _ | e <;> simp [hlw, hneed, hm]
    · simp [hlw]

/-- On every path of `ensureSessionIsValid`, a non-nil error comes with a
nil session. -/
lemma ensureSessionIsValid_disj (s : storedSessionLoader) (k : Nat) (m : MSession) :
    (ensureSessionIsValid s k m).1.2 = none ∨ (ensureSessionIsValid s k m).1.1 = none := by
  cases hdue : s.isRefreshPeriodOver m
  · simp [ensureSessionIsValid, hdue]
  · cases hneed : s.isRefreshSessionNeededWithProvider m
    · rcases hv : (s.validateSession m).1 with _ | e <;>
        simp [ensureSessionIsValid, hdue, hneed, hv]
    · simp only [ensureSessionIsValid, hdue, hneed]
      simpa using getRefreshedSession_disj s k

/-- On every path of `getValidatedSession`, a non-nil error comes with a nil
session. -/
lemma getValidatedSession_disj (s : storedSessionLoader) :
    (getValidatedSession s).1.2 = none ∨ (getValidatedSession s).1.1 = none := by
  rcases hl : s.load 0 with ⟨v, err⟩
  rcases err with _ | e
  · rcases v with _ | m
    · simp [getValidatedSession, hl]
    · simp only [getValidatedSession, hl]
      simpa using ensureSessionIsValid_disj s 1 m
  · simp [getValidatedSession, hl]

/-- The first iteration of the retry loop always performs a `Load`. -/
lemma retry_count_load_pos (s : storedSessionLoader) (n k : Nat) :
    0 < (retryLoadingValidSession s (n+1) k).2.count Event.load := by
  rcases hl : s.load k with ⟨v, err⟩
  rcases err with _ | e
  · rcases v with _ | m
    · simp [retryLoadingValidSession, hl]
    · cases hdue : s.isRefreshPeriodOver m
      · simp [retryLoadingValidSession, hl, hdue]
      · cases hneed : s.isRefreshSessionNeededWithProvider m
        · simp [retryLoadingValidSession, hl, hdue, hneed]
        · simp [retryLoadingValidSession, hl, hdue, hneed, List.count_cons]
  · simp [retryLoadingValidSession, hl]

/-- If every `Load` observed by the retry loop yields a session that is
still due for refresh and still reported refresh-needed, the loop runs all
its attempts, performing one `Load` per attempt, never calls the provider
refresh, and ends with no session and no error. -/
lemma retry_allBusy (s : storedSessionLoader)
    (hload : ∀ i, ∃ m, s.load i = (some m, none) ∧ s.isRefreshPeriodOver m = true ∧
      s.isRefreshSessionNeededWithProvider m = true) :
    ∀ n k, (retryLoadingValidSession s n k).1 = (none, none)
      ∧ (retryLoadingValidSession s n k).2.count Event.load = n
      ∧ (retryLoadingValidSession s n k).2.count Event.refreshSession = 0 := by
  intro n
  induction n with
  | zero => intro k; simp [retryLoadingValidSession]
  | succ n ih =>
    intro k
    obtain ⟨m, hm, hdue, hneed⟩ := hload k
    have h := ih (k+1)
    simp [retryLoadingValidSession, hm, hdue, hneed, List.count_cons, h.1, h.2.1, h.2.2]

/-! Concrete collaborators used by the witnesses. -/

/-- A session whose age 5 is past a refresh period of 1 and which is not
expired. -/
def mDue : MSession := ⟨3, 5, false⟩

/-- A loader whose store always finds `mDue`, whose lock is always free,
whose saves, clears, refreshes and validations all succeed, and whose
provider always wants a refresh. -/
def baseLoader : storedSessionLoader :=
  { load := fun _ => (some mDue, none)
    loadWithLock := (some mDue, none)
    save := fun _ => none
    clear := none
    refreshPeriod := 1
    refreshSessionWithProvider := fun m => (m, none)
    isRefreshSessionNeededWithProvider := fun _ => true
    validateSessionState := fun _ => true }

/-- Lock always held elsewhere. -/
def lockBusyLoader : storedSessionLoader :=
  { baseLoader with loadWithLock := (none, some GoErr.notLockable) }

/-- `LoadWithLock` fails with a generic (non-contention) store error. -/
def lockErrLoader : storedSessionLoader :=
  { baseLoader with loadWithLock := (none, some (GoErr.msg "redis down")) }

/-- The provider reports refresh not needed after the locked reload. -/
def noRefreshNeededLoader : storedSessionLoader :=
  { baseLoader with isRefreshSessionNeededWithProvider := fun _ => false }

/-- Plain `Load` always fails. -/
def loadFailLoader : storedSessionLoader :=
  { baseLoader with load := fun _ => (none, some (GoErr.msg "load failed")) }

/-- Refreshing disabled. -/
def zeroPeriodLoader : storedSessionLoader :=
  { baseLoader with refreshPeriod := 0 }

/-- First `Load` finds a refresh-due session, every later `Load` fails. -/
def storeErrRetryLoader : storedSessionLoader :=
  { baseLoader with
    load := fun i => if i = 0 then (some mDue, none) else (none, some (GoErr.msg "load failed")) }

/-! The claims. -/

/-- C1. If every `LoadWithLock` attempt fails with the distinguished
lock-contention error and every subsequent `Load` returns a session still
due for refresh (`RefreshPeriod > 0` and `Age() >= RefreshPeriod`) for
which `IsRefreshSessionNeeded` reports true, then `getRefreshedSession`
returns no session and no error after exactly the retry budget of 10 `Load`
attempts, and `RefreshSession` is never called. -/
theorem getRefreshedSession_contention_exhaustion (s : storedSessionLoader) (k : Nat)
    (hlock : s.loadWithLock.2 = some GoErr.notLockable)
    (hload : ∀ i, ∃ m, s.load i = (some m, none) ∧ s.isRefreshPeriodOver m = true ∧
      s.isRefreshSessionNeededWithProvider m = true) :
    (getRefreshedSession s k).1 = (none, none)
    ∧ (getRefreshedSession s k).2.count Event.load = 10
    ∧ (getRefreshedSession s k).2.count Event.refreshSession = 0 := by
  have h := retry_allBusy s hload 10 k
  simp [getRefreshedSession, hlock, List.count_cons, List.count_append, h.1, h.2.1, h.2.2]

/-- Witness for C1 at a concrete loader: lock always contended, store
always returning the refresh-due session `mDue`. -/
theorem getRefreshedSession_contention_exhaustion_witness :
    (getRefreshedSession lockBusyLoader 0).1 = (none, none)
    ∧ (getRefreshedSession lockBusyLoader 0).2.count Event.load = 10
    ∧ (getRefreshedSession lockBusyLoader 0).2.count Event.refreshSession = 0 :=
  getRefreshedSession_contention_exhaustion lockBusyLoader 0 rfl
    (fun _ => ⟨mDue, rfl, rfl, rfl⟩)

/-- C3. Whenever `getRefreshedSession` acquires the lock and the reloaded
session is non-nil but `IsRefreshSessionNeeded` reports false for it, the
reloaded session is returned unchanged and neither `RefreshSession` nor
`Save` is called (the event trace is exactly the lock acquisition, the
needed-check and the lock release). -/
theorem getRefreshedSession_thundering_herd (s : storedSessionLoader) (k : Nat) (m : MSession)
    (hlock : s.loadWithLock = (some m, none))
    (hneed : s.isRefreshSessionNeededWithProvider m = false) :
    getRefreshedSession s k =
      ((some m, none), [Event.loadWithLock, Event.isRefreshNeeded, Event.releaseLock]) := by
  simp [getRefreshedSession, hlock, hneed]

/-- Witness for C3 at a concrete loader whose provider declines the
post-lock refresh. -/
theorem getRefreshedSession_thundering_herd_witness :
    getRefreshedSession noRefreshNeededLoader 0 =
      ((some mDue, none), [Event.loadWithLock, Event.isRefreshNeeded, Event.releaseLock]) :=
  getRefreshedSession_thundering_herd noRefreshNeededLoader 0 mDue rfl rfl

/-- C4. `getRefreshedSession` enters the bounded retry/poll path (observable
as at least one plain `Load`) exactly when `LoadWithLock` fails with the
distinguished lock-contention error; any other `LoadWithLock` error is
returned to the caller unchanged, with no retry `Load` performed. -/
theorem getRefreshedSession_retry_iff_notLockable (s : storedSessionLoader) (k : Nat) :
    (0 < (getRefreshedSession s k).2.count Event.load ↔
      s.loadWithLock.2 = some GoErr.notLockable)
    ∧ (∀ e, s.loadWithLock.2 = some e → e ≠ GoErr.notLockable →
        (getRefreshedSession s k).1 = (none, some e)
        ∧ (getRefreshedSession s k).2.count Event.load = 0) := by
  rcases hlw : s.loadWithLock with ⟨v, err⟩
  by_cases hc : err = some GoErr.notLockable
  · subst hc
    have hpos : 0 < (retryLoadingValidSession s 10 k).2.count Event.load :=
      retry_count_load_pos s 9 k
    constructor
    · simp [getRefreshedSession, hlw, List.count_cons, List.count_append]
      simpa using hpos
    · intro e he hne
      have he2 : some GoErr.notLockable = some e := he
      exact absurd (Option.some.inj he2).symm hne
  · have hcount : (getRefreshedSession s k).2.count Event.load = 0 := by
      rw [List.count_eq_zero]
      intro hmem
      rcases err with _ | e
      · rcases v with _ | m
        · simp [getRefreshedSession, hlw] at hmem
        · cases hneed : s.isRefreshSessionNeededWithProvider m
          · simp [getRefreshedSession, hlw, hneed] at hmem
          · rcases hm : (s.refreshSession m).1.2 with _ | e2 <;>
              simp [getRefreshedSession, hlw, hneed, hm] at hmem <;>
              exact absurd (refreshSession_mem s m Event.load hmem) (by decide)
      · simp [getRefreshedSession, hlw, hc] at hmem
    constructor
    · rw [hcount]
      simp [hlw]
      exact fun h => absurd h hc
    · intro e he hne
      have he2 : err = some e := he
      subst he2
      refine ⟨?_, hcount⟩
      simp [getRefreshedSession, hlw, hc]

/-- Witness for C4 at a concrete loader whose `LoadWithLock` fails with a
generic store error. -/
theorem getRefreshedSession_retry_iff_notLockable_witness :
    (getRefreshedSession lockErrLoader 0).1 = (none, some (GoErr.msg "redis down"))
    ∧ (getRefreshedSession lockErrLoader 0).2.count Event.load = 0 :=
  (getRefreshedSession_retry_iff_notLockable lockErrLoader 0).2
    (GoErr.msg "redis down") rfl (by decide)

/-- C5. Whenever `getValidatedSession` returns an error, `loadSession`
calls `Clear` exactly once, installs a nil session into the scope, and
still invokes the next handler exactly once; the result of `Clear` itself
is only logged (the conclusion holds whatever `clear` returns), so a
`Clear` failure is not propagated. -/
theorem loadSession_defensive_clear (s : storedSessionLoader) (e : GoErr)
    (herr : (getValidatedSession s).1.2 = some e) :
    (loadSession s none).1 = none
    ∧ (loadSession s none).2.count Event.clear = 1
    ∧ (loadSession s none).2.count Event.next = 1 := by
  have hnil : (getValidatedSession s).1.1 = none := by
    rcases getValidatedSession_disj s with h | h
    · rw [herr] at h; cases h
    · exact h
  have hclear : (getValidatedSession s).2.count Event.clear = 0 := by
    rw [List.count_eq_zero]
    intro hmem
    exact (getValidatedSession_mem s Event.clear hmem).1 rfl
  have hnext : (getValidatedSession s).2.count Event.next = 0 := by
    rw [List.count_eq_zero]
    intro hmem
    exact (getValidatedSession_mem s Event.next hmem).2 rfl
  rcases hr : (getValidatedSession s).1 with ⟨v, err⟩
  rw [hr] at herr hnil
  have hv : v = none := hnil
  have he : err = some e := herr
  subst hv
  subst he
  simp [loadSession, hr, List.count_cons, List.count_append, hclear, hnext]

/-- Witness for C5 at a concrete loader whose `Load` always fails. -/
theorem loadSession_defensive_clear_witness :
    (loadSession loadFailLoader none).1 = none
    ∧ (loadSession loadFailLoader none).2.count Event.clear = 1
    ∧ (loadSession loadFailLoader none).2.count Event.next = 1 :=
  loadSession_defensive_clear loadFailLoader (GoErr.msg "load failed") rfl

/-- C6. If the request scope already carries a session, `loadSession`
invokes only the next handler — no store operation, no provider callback —
and installs that same session value unchanged. -/
theorem loadSession_passthrough (s : storedSessionLoader) (session : MSession) :
    loadSession s (some session) = (some session, [Event.next]) := rfl

/-- C7. With `RefreshPeriod` zero, `ensureSessionIsValid` on a loaded
session of positive age returns the session unchanged with no error and
performs no provider callback at all (empty event trace: no
`IsRefreshSessionNeeded`, no `ValidateSessionState`, no `RefreshSession`). -/
theorem ensureSessionIsValid_fast_path (s : storedSessionLoader) (k : Nat) (session : MSession)
    (hrp : s.refreshPeriod = 0) (_hage : 0 < session.age) :
    ensureSessionIsValid s k session = ((some session, none), []) := by
  have h0 : s.isRefreshPeriodOver session = false := by
    simp [storedSessionLoader.isRefreshPeriodOver, hrp]
  simp [ensureSessionIsValid, h0]

/-- Witness for C7 at a concrete loader with refreshing disabled. -/
theorem ensureSessionIsValid_fast_path_witness :
    ensureSessionIsValid zeroPeriodLoader 0 mDue = ((some mDue, none), []) :=
  ensureSessionIsValid_fast_path zeroPeriodLoader 0 mDue rfl (by decide)

/-- C9. If the loads before the j-th polling attempt all return sessions
still due and still refresh-needed, and the j-th `Load` (j within the
attempt budget) fails with a store error, `retryLoadingValidSession`
returns nil and that very error immediately: exactly j+1 `Load` calls are
made, the remaining attempts are not consumed. -/
theorem retryLoadingValidSession_store_error_aborts (s : storedSessionLoader)
    (j n k : Nat) (e : GoErr) (hj : j < n)
    (hbefore : ∀ i, i < j → ∃ m, s.load (k+i) = (some m, none) ∧
      s.isRefreshPeriodOver m = true ∧ s.isRefreshSessionNeededWithProvider m = true)
    (herr : (s.load (k+j)).2 = some e) :
    (retryLoadingValidSession s n k).1 = (none, some e)
    ∧ (retryLoadingValidSession s n k).2.count Event.load = j + 1 := by
  induction j generalizing n k with
  | zero =>
    rcases n with _ | n
    · omega
    rcases hl : s.load k with ⟨v, err⟩
    rw [Nat.add_zero, hl] at herr
    have he : err = some e := herr
    subst he
    simp [retryLoadingValidSession, hl]
  | succ j ih =>
    rcases n with _ | n
    · omega
    obtain ⟨m, hm, hdue, hneed⟩ := hbefore 0 (Nat.succ_pos j)
    rw [Nat.add_zero] at hm
    have hrec := ih n (k+1) (by omega)
      (fun i hi => by
        have h := hbefore (i+1) (by omega)
        rwa [show k + (i+1) = k + 1 + i by omega] at h)
      (by rwa [show k + 1 + j = k + (j+1) by omega])
    simp [retryLoadingValidSession, hm, hdue, hneed, List.count_cons, hrec.1, hrec.2]

/-- Witness for C9: first poll sees a still-busy session, the second poll
hits a store error with two attempts still unused. -/
theorem retryLoadingValidSession_store_error_aborts_witness :
    (retryLoadingValidSession storeErrRetryLoader 3 0).1 = (none, some (GoErr.msg "load failed"))
    ∧ (retryLoadingValidSession storeErrRetryLoader 3 0).2.count Event.load = 1 + 1 :=
  retryLoadingValidSession_store_error_aborts storeErrRetryLoader 1 3 0
    (GoErr.msg "load failed") (by omega)
    (by
      intro i hi
      have hi0 : i = 0 := by omega
      subst hi0
      exact ⟨mDue, rfl, rfl, rfl⟩)
    rfl

/-- C10. `EncodeSessionState` never mutates its receiver: on every path —
nil or non-nil cipher, including encryption failure on any field — the
receiver's value after the call is its value before (all assignments in the
source target the local copy `ss`). -/
theorem encodeSessionState_receiver_unchanged (s : SessionState) (c : Option Cipher) :
    (EncodeSessionState s c).2 = s := by
  cases c with
  | none => rfl
  | some c =>
    simp only [EncodeSessionState]
    split
    · rfl
    · split
      · rfl
      · split
        · rfl
        · rfl

/-- C8. The textual summary of a `SessionState` depends only on `Email`,
`User`, `ExpiresOn` and the emptiness of each sensitive token field: two
states agreeing on those produce identical summaries, so no non-empty
`AccessToken`, `IDToken` or `RefreshToken` plaintext can reach the
summary. -/
theorem sessionState_string_token_blind (s1 s2 : SessionState)
    (hE : s1.Email = s2.Email) (hU : s1.User = s2.User) (hX : s1.ExpiresOn = s2.ExpiresOn)
    (hA : s1.AccessToken = "" ↔ s2.AccessToken = "")
    (hI : s1.IDToken = "" ↔ s2.IDToken = "")
    (hR : s1.RefreshToken = "" ↔ s2.RefreshToken = "") :
    SessionState.String s1 = SessionState.String s2 := by
  unfold SessionState.String
  rw [hE, hU, hX]
  by_cases h1 : s1.AccessToken = "" <;> by_cases h2 : s1.IDToken = "" <;>
    by_cases h3 : s1.RefreshToken = "" <;> simp_all

/-- Witness for C8: two states with different token plaintexts, identical
summaries. -/
theorem sessionState_string_token_blind_witness :
    SessionState.String ⟨"tokA", "", 7, "r1", "e@x", "u"⟩ =
      SessionState.String ⟨"tokB", "", 7, "r2", "e@x", "u"⟩ :=
  sessionState_string_token_blind ⟨"tokA", "", 7, "r1", "e@x", "u"⟩
    ⟨"tokB", "", 7, "r2", "e@x", "u"⟩ rfl rfl rfl (by decide) (by decide) (by decide)

/-- C2 as stated is false on the code, in both of its halves.

First half (no cipher): for the state with `Email = "a@b"` and every other
field empty, the restriction to Email and User with all other fields empty
is the state itself, yet the round trip does not return it: decode
back-fills `User` with the local part "a" of the Email.

Second half (cipher): `swapCipher` is an involution on strings, so its
`Decrypt` inverts its `Encrypt` (`swapCipher_inverts`), yet for the state
with `AccessToken = "t"` the round trip loses the token: encryption maps
the non-empty plaintext "t" to the empty ciphertext, and decode skips
decryption of empty fields, returning `AccessToken = ""`. -/
theorem sessionState_roundtrip_counterexample :
    (DecodeSessionState (EncodeSessionState ⟨"", "", 0, "", "a@b", ""⟩ none).1.1 none).1
      ≠ some ⟨"", "", 0, "", "a@b", ""⟩
    ∧ (DecodeSessionState
        (EncodeSessionState ⟨"t", "", 0, "", "e@x", "u"⟩ (some swapCipher)).1.1
        (some swapCipher)).1
      ≠ some ⟨"t", "", 0, "", "e@x", "u"⟩ := by
  constructor <;> decide

/-- One sensitive field through encode then decode: the `if`-guarded
encryption step is inverted by the `if`-guarded decryption step, provided
the cipher is inverted by its decryption and maps non-empty plaintexts to
non-empty ciphertexts. -/
lemma field_crypt_roundtrip (c : Cipher)
    (hinv : ∀ x y, c.Encrypt x = (y, none) → c.Decrypt y = (x, none))
    (hne : ∀ x y, x ≠ "" → c.Encrypt x = (y, none) → y ≠ "")
    (x y : String)
    (h : (if x ≠ "" then c.Encrypt x else (x, none)) = (y, none)) :
    (if y ≠ "" then c.Decrypt y else (y, none)) = (x, none) := by
  by_cases hx : x = ""
  · subst hx
    rw [if_neg (by simp)] at h
    have hy : "" = y := congrArg Prod.fst h
    subst hy
    rw [if_neg (by simp)]
  · rw [if_pos hx] at h
    have hy : y ≠ "" := hne x y hx h
    rw [if_pos hy]
    exact hinv x y h

/-- C2 (amended). For every `SessionState` whose `User` field is non-empty
(decode back-fills an empty `User` from the Email's local part, which the
counterexample shows breaks the round trip otherwise):

with a configured cipher whose `Decrypt` inverts its `Encrypt` and whose
`Encrypt` maps non-empty plaintexts to non-empty ciphertexts (decode skips
decryption of empty fields, which the counterexample shows breaks the
round trip otherwise), if encoding succeeds with wire value `w` then
decoding `w` yields the original state in every field;

and with no cipher, the round trip yields exactly the state restricted to
`Email` and `User` with all other fields empty. -/
theorem sessionState_roundtrip_amended (s : SessionState) (c : Cipher) (w : SessionState)
    (hinv : ∀ x y, c.Encrypt x = (y, none) → c.Decrypt y = (x, none))
    (hne : ∀ x y, x ≠ "" → c.Encrypt x = (y, none) → y ≠ "")
    (huser : s.User ≠ "")
    (henc : (EncodeSessionState s (some c)).1 = (w, none)) :
    DecodeSessionState w (some c) = (some s, none)
    ∧ DecodeSessionState (EncodeSessionState s none).1.1 none =
        (some ⟨"", "", 0, "", s.Email, s.User⟩, none) := by
  constructor
  · rcases h1 : (if s.AccessToken ≠ "" then c.Encrypt s.AccessToken else (s.AccessToken, none))
      with ⟨a, _ | e1⟩
    swap
    · simp [EncodeSessionState, h1] at henc
    rcases h2 : (if s.IDToken ≠ "" then c.Encrypt s.IDToken else (s.IDToken, none))
      with ⟨i, _ | e2⟩
    swap
    · simp [EncodeSessionState, h1, h2] at henc
    rcases h3 : (if s.RefreshToken ≠ "" then c.Encrypt s.RefreshToken else (s.RefreshToken, none))
      with ⟨r, _ | e3⟩
    swap
    · simp [EncodeSessionState, h1, h2, h3] at henc
    have d1 := field_crypt_roundtrip c hinv hne s.AccessToken a h1
    have d2 := field_crypt_roundtrip c hinv hne s.IDToken i h2
    have d3 := field_crypt_roundtrip c hinv hne s.RefreshToken r h3
    simp only [EncodeSessionState, h1, h2, h3] at henc
    have hw : ({ s with AccessToken := a, IDToken := i, RefreshToken := r } : SessionState) = w := by
      have := congrArg Prod.fst henc
      simpa using this
    subst hw
    simp [DecodeSessionState, d1, d2, d3, huser]
  · simp [EncodeSessionState, DecodeSessionState, huser]

/-- Witness for the amended C2 at a concrete state with all fields
non-empty and the identity cipher, which trivially satisfies both cipher
hypotheses. -/
theorem sessionState_roundtrip_amended_witness :
    DecodeSessionState ⟨"at", "it", 7, "rt", "e@x", "u"⟩ (some idCipher) =
      (some ⟨"at", "it", 7, "rt", "e@x", "u"⟩, none)
    ∧ DecodeSessionState (EncodeSessionState ⟨"at", "it", 7, "rt", "e@x", "u"⟩ none).1.1 none =
        (some ⟨"", "", 0, "", "e@x", "u"⟩, none) :=
  sessionState_roundtrip_amended ⟨"at", "it", 7, "rt", "e@x", "u"⟩ idCipher
    ⟨"at", "it", 7, "rt", "e@x", "u"⟩
    (fun x y h => by
      have hxy : x = y := congrArg Prod.fst h
      subst hxy
      rfl)
    (fun x y hx h => by
      have hxy : x = y := congrArg Prod.fst h
      subst hxy
      exact hx)
    (by decide) (by decide)

end OAuthProxy
